import Mathlib

/-!
Verification of the live session and realtime broadcast subsystem of the
classroom practice platform: the join/leave lifecycle of `useLiveSession`,
the server-push event bus (`liveRooms`), the managed realtime channel cache
(`liveRealtime`), the `/api/live` publish endpoint, and the teacher-side
canvas event ordering.

JavaScript numbers obtained from `new Date(x).getTime()` are modelled as
`Option Int`: `some t` is a finite epoch-millisecond value, `none` models a
non-finite result (`NaN`), mirroring every `Number.isFinite` guard in the
source.  Nullable values are `Option`, mutable maps are association lists.
-/

namespace MatLive

/-! ### Association list helpers (modelling JS `Map`) -/

/-- Lookup in an association list keyed by strings (models `Map.get`). -/
def lookupA {α : Type} : List (String × α) → String → Option α
  | [], _ => none
  | (k', v) :: rest, k => if k' = k then some v else lookupA rest k

/-- Update or insert a binding (models `Map.set`). -/
def setA {α : Type} : List (String × α) → String → α → List (String × α)
  | [], k, v => [(k, v)]
  | (k', v') :: rest, k, v =>
    if k' = k then (k, v) :: rest else (k', v') :: setA rest k v

/-- Remove a binding (models `Map.delete`). -/
def delA {α : Type} (m : List (String × α)) (k : String) : List (String × α) :=
  m.filter (fun p => p.1 ≠ k)

theorem lookupA_setA_self {α : Type} (m : List (String × α)) (k : String) (v : α) :
    lookupA (setA m k v) k = some v := by
  induction m with
  | nil => simp [setA, lookupA]
  | cons p rest ih =>
    by_cases h : p.1 = k
    · simp [setA, h, lookupA]
    · simp [setA, h, lookupA, ih]

theorem lookupA_setA_other {α : Type} (m : List (String × α)) (k k' : String) (v : α)
    (h : k' ≠ k) : lookupA (setA m k v) k' = lookupA m k' := by
  induction m with
  | nil => simp [setA, lookupA, h.symm]
  | cons p rest ih =>
    by_cases hp : p.1 = k
    · subst hp
      simp [setA, lookupA, h.symm]
    · simp only [setA, if_neg hp, lookupA]
      by_cases hp' : p.1 = k'
      · simp [hp']
      · simp [hp', ih]

theorem lookupA_delA_self {α : Type} (m : List (String × α)) (k : String) :
    lookupA (delA m k) k = none := by
  induction m with
  | nil => simp [delA, lookupA]
  | cons p rest ih =>
    by_cases h : p.1 = k
    · simpa [delA, List.filter_cons, h] using ih
    · simpa [delA, List.filter_cons, h, lookupA] using ih

theorem lookupA_delA_other {α : Type} (m : List (String × α)) (k k' : String)
    (h : k' ≠ k) : lookupA (delA m k) k' = lookupA m k' := by
  induction m with
  | nil => rfl
  | cons p rest ih =>
    by_cases hp : p.1 = k
    · have h1 : delA (p :: rest) k = delA rest k := by
        simp [delA, List.filter_cons, hp]
      have h2 : lookupA (p :: rest) k' = lookupA rest k' := by
        simp [lookupA, hp, h.symm]
      rw [h1, ih, h2]
    · have h1 : delA (p :: rest) k = p :: delA rest k := by
        simp [delA, List.filter_cons, hp]
      rw [h1]
      by_cases hp' : p.1 = k'
      · simp [lookupA, hp']
      · simp [lookupA, hp', ih]

/-! ### Identity and session store: `joinSession` (hooks/useLiveSession)

The asynchronous environment of one `joinSession` call (database responses,
clock, localStorage, the generated UUID) is captured in `JoinEnv`, so the
function becomes pure.  Field names follow the source. -/

/-- A row of the `sessions` table as seen by the client after
`new Date(session.expires_at).getTime()`: `expiresMs = none` models a
non-finite parse (NaN). -/
structure SessionRow where
  id : String
  expiresMs : Option Int
deriving Repr, DecidableEq

/-- The participant row returned by the `maybeSingle` alias lookup.
`lastSeen = none` models a falsy `last_seen` column (null or empty, the
`existingAlias?.last_seen` guard); `some none` a present value whose
`getTime()` is non-finite; `some (some t)` a finite timestamp.
`clientToken = none` models a null `client_token` column. -/
structure PartRow where
  lastSeen : Option (Option Int)
  clientToken : Option String
deriving Repr, DecidableEq

/-- Everything the `joinSession` call observes from its surroundings:
the clock, the session lookup result (`none` covers both a query error
and an absent row), the participant row for the requested alias, the
token found in localStorage (`global ?? scoped`), the UUID that
`crypto.randomUUID` would produce, and whether the upsert errors. -/
structure JoinEnv where
  now : Int
  lookup : Option SessionRow
  existing : Option PartRow
  existingToken : Option String
  freshToken : String
  upsertError : Bool
deriving Repr, DecidableEq

inductive JoinResult where
  | emptyFields
  | notFound
  | expired
  | aliasTaken
  | upsertFailed
  | ok (token : String)
deriving Repr, DecidableEq

/-- The row handed to `supabase.from("participants").upsert`. -/
structure UpsertRow where
  session_id : String
  «alias» : String
  last_seen : Int
  client_token : String
deriving Repr, DecidableEq

/-- Result of a join attempt together with the row passed to the upsert
(`none` when the code returns before reaching the upsert call). -/
structure JoinOutcome where
  result : JoinResult
  upsertAttempt : Option UpsertRow
deriving Repr, DecidableEq

/-- Models the JS `String.prototype.trim`: drop leading and trailing
whitespace.  Defined structurally on the character list so that it
evaluates by `decide` and `rfl`. -/
def jsTrim (s : String) : String :=
  String.mk ((((s.data.dropWhile Char.isWhitespace).reverse.dropWhile
    Char.isWhitespace)).reverse)

/-- Models the JS `String.prototype.toUpperCase` (character-wise). -/
def jsToUpper (s : String) : String :=
  String.mk (s.data.map Char.toUpper)

/-- Models `nextAlias.trim().replace(/:/g, "")`: the colon strip. -/
def stripColons (s : String) : String :=
  String.mk (s.data.filter (fun c => c != ':'))

/-- The 2-minute alias freshness window from `joinSession`. -/
def freshnessWindowMs : Int := 2 * 60 * 1000

/-- Models `Number.isFinite(lastSeen) && Date.now() - lastSeen < 2 * 60 * 1000`. -/
def isRecentLastSeen (now : Int) (lastSeen : Option Int) : Bool :=
  match lastSeen with
  | some t => now - t < freshnessWindowMs
  | none => false

/-- Models `existingToken && existingAlias.client_token === existingToken`
(a falsy empty string never matches). -/
def tokenMatches (existingToken : Option String) (dbToken : Option String) : Bool :=
  match existingToken with
  | some tok => tok ≠ "" && dbToken == some tok
  | none => false

/-- The alias-collision test of `joinSession`: reject when the row has a
truthy `last_seen` that is recent and the stored token does not match. -/
def aliasBlocked (env : JoinEnv) : Bool :=
  match env.existing with
  | some p =>
    match p.lastSeen with
    | some ls => isRecentLastSeen env.now ls && !(tokenMatches env.existingToken p.clientToken)
    | none => false
  | none => false

/-- Models `Number.isFinite(expiresAt) && expiresAt < Date.now()`. -/
def sessionExpiredCheck (expiresMs : Option Int) (now : Int) : Bool :=
  match expiresMs with
  | some t => t < now
  | none => false

/-- The `joinSession` function of `useLiveSession`, with the branch
structure of the source: validate the trimmed inputs, look up the session,
check expiry, run the alias-collision rule, then upsert the participant
row with `existingToken ?? crypto.randomUUID()`. -/
def joinSessionCore (env : JoinEnv) (nextSession nextAlias : String) : JoinOutcome :=
  let trimmedSession := jsToUpper (jsTrim nextSession)
  let trimmedAlias := stripColons (jsTrim nextAlias)
  if trimmedSession = "" ∨ trimmedAlias = "" then ⟨.emptyFields, none⟩
  else
    match env.lookup with
    | none => ⟨.notFound, none⟩
    | some session =>
      if sessionExpiredCheck session.expiresMs env.now then ⟨.expired, none⟩
      else if aliasBlocked env then ⟨.aliasTaken, none⟩
      else
        let clientToken := env.existingToken.getD env.freshToken
        let row : UpsertRow := ⟨session.id, trimmedAlias, env.now, clientToken⟩
        if env.upsertError then ⟨.upsertFailed, some row⟩
        else ⟨.ok clientToken, some row⟩

/-- Whether a string contains the room-identifier delimiter. -/
def containsColon (s : String) : Bool :=
  s.data.contains ':'

theorem mem_stripColons {c : Char} {s : String} (h : c ∈ (stripColons s).data) :
    c ≠ ':' := by
  simp only [stripColons] at h
  have hmem := List.of_mem_filter h
  simpa using hmem

theorem containsColon_stripColons (s : String) : containsColon (stripColons s) = false := by
  by_contra h
  rw [Bool.not_eq_false] at h
  have hmem : (':' : Char) ∈ (stripColons s).data := by
    simpa [containsColon] using h
  exact mem_stripColons hmem rfl

theorem tokenMatches_iff (et dbTok : Option String) (hne : et ≠ some "") :
    tokenMatches et dbTok = true ↔ ∃ tok, et = some tok ∧ dbTok = some tok := by
  cases et with
  | none => simp [tokenMatches]
  | some tok =>
    have htok : tok ≠ "" := fun h => hne (by rw [h])
    simp [tokenMatches, htok]

theorem aliasBlocked_iff (env : JoinEnv) (p : PartRow)
    (hex : env.existing = some p) (htok : env.existingToken ≠ some "") :
    aliasBlocked env = true ↔
      ((∃ t, p.lastSeen = some (some t) ∧ env.now - t < freshnessWindowMs) ∧
        ¬ ∃ tok, env.existingToken = some tok ∧ p.clientToken = some tok) := by
  obtain ⟨pls, pct⟩ := p
  simp only [aliasBlocked, hex]
  cases pls with
  | none => simp
  | some ls =>
    cases ls with
    | none => simp [isRecentLastSeen]
    | some t =>
      simp only [isRecentLastSeen, Bool.and_eq_true, Bool.not_eq_true',
        tokenMatches_iff env.existingToken pct htok |>.symm.not]
      constructor
      · rintro ⟨hrec, hm⟩
        refine ⟨⟨t, rfl, by simpa using hrec⟩, ?_⟩
        simp [hm]
      · rintro ⟨⟨t', ht', hrec⟩, hm⟩
        obtain rfl : t' = t := by simpa using ht'.symm
        refine ⟨by simpa using hrec, ?_⟩
        simpa using hm

/-- C1: with a participant row present for the requested alias, the join is
rejected as `AliasTaken` with no upsert exactly when that row has a finite
`last_seen` within the 2-minute window and its stored `client_token` does
not equal the token the client presents; in every other case the join
succeeds and the upsert overwrites `last_seen` with the current time and
`client_token` with the presented (or freshly generated) token. -/
theorem joinSession_alias_collision (env : JoinEnv) (sess : SessionRow) (p : PartRow)
    (code al : String)
    (hcode : jsToUpper (jsTrim code) ≠ "") (hal : stripColons (jsTrim al) ≠ "")
    (hlook : env.lookup = some sess)
    (hexp : sessionExpiredCheck sess.expiresMs env.now = false)
    (hex : env.existing = some p)
    (hup : env.upsertError = false)
    (htok : env.existingToken ≠ some "") :
    (((∃ t, p.lastSeen = some (some t) ∧ env.now - t < freshnessWindowMs) ∧
        ¬ ∃ tok, env.existingToken = some tok ∧ p.clientToken = some tok) →
      joinSessionCore env code al = ⟨.aliasTaken, none⟩)
    ∧ (¬((∃ t, p.lastSeen = some (some t) ∧ env.now - t < freshnessWindowMs) ∧
        ¬ ∃ tok, env.existingToken = some tok ∧ p.clientToken = some tok) →
      joinSessionCore env code al =
        ⟨.ok (env.existingToken.getD env.freshToken),
         some ⟨sess.id, stripColons (jsTrim al), env.now,
               env.existingToken.getD env.freshToken⟩⟩) := by
  constructor
  · intro hb
    have hba : aliasBlocked env = true := (aliasBlocked_iff env p hex htok).mpr hb
    simp [joinSessionCore, hcode, hal, hlook, hexp, hba]
  · intro hb
    have hba : aliasBlocked env = false := by
      cases hv : aliasBlocked env
      · rfl
      · exact absurd ((aliasBlocked_iff env p hex htok).mp hv) hb
    simp [joinSessionCore, hcode, hal, hlook, hexp, hba, hup]

/-- Concrete environment exercising the AliasTaken branch: another device
holds the alias with a `last_seen` 1 second old and a different token. -/
def envC1 : JoinEnv :=
  { now := 1000000
    lookup := some ⟨"sid1", some 2000000⟩
    existing := some ⟨some (some 999000), some "otherTok"⟩
    existingToken := some "myTok"
    freshToken := "freshTok"
    upsertError := false }

theorem joinSession_alias_collision_witness :
    joinSessionCore envC1 "ab" "Kid" = ⟨.aliasTaken, none⟩ := by
  have h := joinSession_alias_collision envC1 ⟨"sid1", some 2000000⟩
    ⟨some (some 999000), some "otherTok"⟩ "ab" "Kid"
    (by decide) (by decide) rfl (by decide) rfl rfl (by decide)
  refine h.1 ⟨⟨999000, rfl, by decide⟩, ?_⟩
  rintro ⟨tok, h1, h2⟩
  have h1' : "myTok" = tok := by simpa [envC1] using h1
  have h2' : "otherTok" = tok := by simpa [envC1] using h2
  exact absurd (h1'.trans h2'.symm) (by decide)

/-! ### Session lifecycle controller (useLiveSession state machine)

The React state of the hook is one record; each asynchronous effect of the
source becomes a pure state transition parameterised by what it observed.
localStorage writes are not part of the record (they are outputs), but the
values a later join reads back are threaded explicitly where a claim needs
them. -/

structure CState where
  sessionCode : String
  «alias» : String
  sessionId : String
  sessionExpiresAt : Option Int
  isJoined : Bool
  joining : Bool
  joinError : String
  hasGlobalIdentity : Bool
deriving Repr, DecidableEq

/-- All `useState` initial values of the hook. -/
def initState : CState :=
  { sessionCode := "", «alias» := "", sessionId := "", sessionExpiresAt := none,
    isJoined := false, joining := false, joinError := "", hasGlobalIdentity := false }

def evictionMessage : String := "Du er blevet fjernet fra sessionen."

/-- Models `leaveSession(message?)`: clear all identity fields; the error
text is only set when the message is truthy (non-empty). -/
def leaveSession (message : Option String) (s : CState) : CState :=
  { s with sessionCode := "", «alias» := "", sessionId := "",
           sessionExpiresAt := none, isJoined := false, hasGlobalIdentity := false,
           joinError := match message with
                        | some m => if m = "" then s.joinError else m
                        | none => s.joinError }

/-- The state updates performed by one `joinSession` call, in source order:
`setJoining(true)` and `setJoinError("")` happen before the lookup, each
failure branch ends with `setJoining(false)`, and only the success branch
sets the identity fields and `setIsJoined(true)`. -/
def joinSessionStep (env : JoinEnv) (nextSession nextAlias : String) (s : CState) : CState :=
  let trimmedSession := jsToUpper (jsTrim nextSession)
  let trimmedAlias := stripColons (jsTrim nextAlias)
  if trimmedSession = "" ∨ trimmedAlias = "" then
    { s with joinError := "Udfyld sessionkode og alias." }
  else
    let s1 : CState := { s with joining := true, joinError := "" }
    match env.lookup with
    | none =>
      { leaveSession (some "Sessionkode findes ikke.") s1 with joining := false }
    | some session =>
      if sessionExpiredCheck session.expiresMs env.now then
        { s1 with joinError := "Sessionen er udløbet.", joining := false }
      else if aliasBlocked env then
        { s1 with joinError := "Alias er allerede i brug. Vælg et andet.", joining := false }
      else if env.upsertError then
        { s1 with joinError := "Kunne ikke forbinde til sessionen.", joining := false }
      else
        { s1 with sessionCode := trimmedSession, «alias» := trimmedAlias,
                  sessionId := session.id, isJoined := true, joining := false }

/-- The supabase response of the heartbeat `update(...).select("alias")`:
`data = none` models a null data field, `some rows` the returned row list. -/
structure TouchResp where
  error : Bool
  data : Option (List String)
deriving Repr, DecidableEq

/-- Models `!data || data.length === 0`. -/
def touchDataEmpty (r : TouchResp) : Bool :=
  match r.data with
  | none => true
  | some rows => rows.isEmpty

/-- The heartbeat interval of the source effect. -/
def heartbeatIntervalMs : Nat := 30000

/-- One heartbeat tick: `if (error) return;` then force-leave with the
eviction message exactly when the touch returned no rows. -/
def heartbeatTick (r : TouchResp) (s : CState) : CState :=
  if r.error then s
  else if touchDataEmpty r then leaveSession (some evictionMessage) s
  else s

/-- One run of the joined-state session poll (the `loadSession` effect):
an absent row resets, a finite past expiry resets, otherwise the session
id and the parsed expiry are stored. -/
def loadSessionTick (resp : Option SessionRow) (now : Int) (s : CState) : CState :=
  match resp with
  | none => leaveSession none s
  | some session =>
    if sessionExpiredCheck session.expiresMs now then leaveSession none s
    else { s with sessionId := session.id, sessionExpiresAt := session.expiresMs }

inductive TimerAction where
  | noTimer
  | resetNow
  | armAfter (delayMs : Int)
deriving Repr, DecidableEq

/-- The expiry-timer effect: a falsy `sessionExpiresAt` (null, NaN — modelled
as `none` — or 0) arms nothing; a non-positive delay resets immediately;
otherwise a timeout is armed for `expiresAt - now` milliseconds. -/
def expiryTimerEffect (sessionExpiresAt : Option Int) (now : Int) : TimerAction :=
  match sessionExpiresAt with
  | none => .noTimer
  | some t =>
    if t = 0 then .noTimer
    else if t - now ≤ 0 then .resetNow
    else .armAfter (t - now)

/-- The derived room identifier: `sessionCode:alias` while joined with both
components present, otherwise the empty string. -/
def roomId (s : CState) : String :=
  if s.isJoined = true ∧ s.sessionCode ≠ "" ∧ s.«alias» ≠ "" then
    s.sessionCode ++ ":" ++ s.«alias»
  else ""

/-- States the controller can reach through its own effects: the initial
render, the mount-time identity/URL effects (which only run before a join),
`joinSession`, every force-leave path (`leaveSession`, `resetSession`, kick
events, the expiry timer), the heartbeat, and the session poll. -/
inductive Reachable : CState → Prop
  | init : Reachable initState
  | identify {s : CState} (code al : String) (hr : Reachable s)
      (hnj : s.isJoined = false) :
      Reachable { s with sessionCode := code, «alias» := al }
  | join {s : CState} (env : JoinEnv) (nextS nextA : String) (hr : Reachable s) :
      Reachable (joinSessionStep env nextS nextA s)
  | leave {s : CState} (msg : Option String) (hr : Reachable s) :
      Reachable (leaveSession msg s)
  | heartbeat {s : CState} (r : TouchResp) (hr : Reachable s) :
      Reachable (heartbeatTick r s)
  | poll {s : CState} (resp : Option SessionRow) (now : Int) (hr : Reachable s) :
      Reachable (loadSessionTick resp now s)

/-- The room-identifier invariant of the controller. -/
def LifecycleInv (s : CState) : Prop :=
  (s.isJoined = true →
    s.sessionCode ≠ "" ∧ s.«alias» ≠ "" ∧ containsColon s.«alias» = false ∧
    roomId s = s.sessionCode ++ ":" ++ s.«alias»)
  ∧ (s.isJoined = false → roomId s = "")

theorem roomId_not_joined (s : CState) (h : s.isJoined = false) : roomId s = "" := by
  simp [roomId, h]

theorem lifecycleInv_congr {s s' : CState}
    (hj : s'.isJoined = s.isJoined) (hc : s'.sessionCode = s.sessionCode)
    (ha : s'.«alias» = s.«alias») (h : LifecycleInv s) : LifecycleInv s' := by
  have hroom : roomId s' = roomId s := by simp [roomId, hj, hc, ha]
  constructor
  · intro hjt
    obtain ⟨h1, h2, h3, h4⟩ := h.1 (hj ▸ hjt)
    refine ⟨by rw [hc]; exact h1, by rw [ha]; exact h2, by rw [ha]; exact h3, ?_⟩
    rw [hroom, hc, ha, h4]
  · intro hjf
    rw [hroom]
    exact h.2 (hj ▸ hjf)

theorem lifecycleInv_not_joined {s : CState} (h : s.isJoined = false) :
    LifecycleInv s :=
  ⟨fun hj => absurd hj (by simp [h]), fun _ => roomId_not_joined s h⟩

theorem lifecycleInv_leaveSession (msg : Option String) (s : CState) :
    LifecycleInv (leaveSession msg s) :=
  lifecycleInv_not_joined rfl

/-- C7: in every reachable controller state, `roomId` is exactly
`sessionCode:alias` while `isJoined` is true (with both components
non-empty and the alias free of the ":" delimiter, which the join strips),
and `roomId` is the empty string whenever `isJoined` is false. -/
theorem roomId_lifecycle_invariant (s : CState) (h : Reachable s) :
    LifecycleInv s := by
  induction h with
  | init =>
    exact lifecycleInv_not_joined rfl
  | identify code al hr hnj ih =>
    exact lifecycleInv_not_joined hnj
  | @join s env nextS nextA hr ih =>
    by_cases hempty : jsToUpper (jsTrim nextS) = "" ∨ stripColons (jsTrim nextA) = ""
    · have heq : joinSessionStep env nextS nextA s =
          { s with joinError := "Udfyld sessionkode og alias." } := by
        simp [joinSessionStep, hempty]
      rw [heq]
      exact lifecycleInv_congr rfl rfl rfl ih
    · push_neg at hempty
      obtain ⟨hcode, hal⟩ := hempty
      have hne : ¬(jsToUpper (jsTrim nextS) = "" ∨ stripColons (jsTrim nextA) = "") := by
        push_neg
        exact ⟨hcode, hal⟩
      cases hlook : env.lookup with
      | none =>
        have heq : joinSessionStep env nextS nextA s =
            { leaveSession (some "Sessionkode findes ikke.")
                { s with joining := true, joinError := "" } with joining := false } := by
          simp [joinSessionStep, hne, hlook]
        rw [heq]
        exact lifecycleInv_not_joined rfl
      | some session =>
        by_cases hexp : sessionExpiredCheck session.expiresMs env.now = true
        · have heq : joinSessionStep env nextS nextA s =
              { s with joinError := "Sessionen er udløbet.", joining := false } := by
            simp [joinSessionStep, hne, hlook, hexp]
          rw [heq]
          exact lifecycleInv_congr rfl rfl rfl ih
        · rw [Bool.not_eq_true] at hexp
          by_cases hblock : aliasBlocked env = true
          · have heq : joinSessionStep env nextS nextA s =
                { s with joinError := "Alias er allerede i brug. Vælg et andet.",
                         joining := false } := by
              simp [joinSessionStep, hne, hlook, hexp, hblock]
            rw [heq]
            exact lifecycleInv_congr rfl rfl rfl ih
          · rw [Bool.not_eq_true] at hblock
            by_cases hup : env.upsertError = true
            · have heq : joinSessionStep env nextS nextA s =
                  { s with joinError := "Kunne ikke forbinde til sessionen.",
                           joining := false } := by
                simp [joinSessionStep, hne, hlook, hexp, hblock, hup]
              rw [heq]
              exact lifecycleInv_congr rfl rfl rfl ih
            · rw [Bool.not_eq_true] at hup
              have heq : joinSessionStep env nextS nextA s =
                  { s with sessionCode := jsToUpper (jsTrim nextS),
                           «alias» := stripColons (jsTrim nextA),
                           sessionId := session.id, isJoined := true,
                           joining := false, joinError := "" } := by
                simp [joinSessionStep, hne, hlook, hexp, hblock, hup]
              rw [heq]
              refine ⟨fun _ => ⟨hcode, hal, containsColon_stripColons _, ?_⟩, ?_⟩
              · simp [roomId, hcode, hal]
              · intro hjf
                simp at hjf
  | leave msg hr ih =>
    exact lifecycleInv_leaveSession _ _
  | @heartbeat s r hr ih =>
    by_cases herr : r.error = true
    · have heq : heartbeatTick r s = s := by simp [heartbeatTick, herr]
      rw [heq]
      exact ih
    · rw [Bool.not_eq_true] at herr
      by_cases hempty : touchDataEmpty r = true
      · have heq : heartbeatTick r s = leaveSession (some evictionMessage) s := by
          simp [heartbeatTick, herr, hempty]
        rw [heq]
        exact lifecycleInv_leaveSession _ _
      · have heq : heartbeatTick r s = s := by simp [heartbeatTick, herr, hempty]
        rw [heq]
        exact ih
  | @poll s resp now hr ih =>
    cases resp with
    | none => exact lifecycleInv_leaveSession _ _
    | some session =>
      by_cases hexp : sessionExpiredCheck session.expiresMs now = true
      · have heq : loadSessionTick (some session) now s = leaveSession none s := by
          simp [loadSessionTick, hexp]
        rw [heq]
        exact lifecycleInv_leaveSession _ _
      · have heq : loadSessionTick (some session) now s =
            { s with sessionId := session.id, sessionExpiresAt := session.expiresMs } := by
          simp [loadSessionTick, hexp]
        rw [heq]
        exact lifecycleInv_congr rfl rfl rfl ih

/-- Environment for the invariant witness: a healthy join. -/
def envC7 : JoinEnv :=
  { now := 500, lookup := some ⟨"sidW", some 10000⟩, existing := none,
    existingToken := none, freshToken := "tokW", upsertError := false }

theorem roomId_lifecycle_invariant_witness :
    LifecycleInv (joinSessionStep envC7 "ab" "Kid" initState) := by
  exact roomId_lifecycle_invariant _
    (Reachable.join envC7 "ab" "Kid" Reachable.init)

/-! ### Expiry semantics (C2, C9) -/

/-- Session whose expiry instant is exactly the current clock value. -/
def sessAtBoundary : SessionRow := ⟨"sid2", some 1000000⟩

def envC2 : JoinEnv :=
  { now := 1000000, lookup := some sessAtBoundary, existing := none,
    existingToken := none, freshToken := "tokC2", upsertError := false }

/-- A joined controller state used by concrete checks. -/
def joinedStateW : CState :=
  { sessionCode := "AB", «alias» := "Kid", sessionId := "sid2",
    sessionExpiresAt := some 1000000, isJoined := true, joining := false,
    joinError := "", hasGlobalIdentity := false }

/-- C2 counterexample: at the instant `now = expiresAt` — which the claim
says is treated as expired — the join path accepts the session (ok, not the
expired error) and the joined-state poll keeps the participant joined. -/
theorem session_expiry_boundary_counterexample :
    envC2.now ≥ 1000000 ∧ sessAtBoundary.expiresMs = some 1000000
    ∧ (joinSessionCore envC2 "ab" "Kid").result = .ok "tokC2"
    ∧ (joinSessionCore envC2 "ab" "Kid").result ≠ .expired
    ∧ (loadSessionTick (some sessAtBoundary) 1000000 joinedStateW).isJoined = true := by
  refine ⟨by decide, rfl, ?_, ?_, ?_⟩ <;> decide

/-- C2 amended: a session with a finite stored expiry is treated as expired
exactly when `now` is strictly past `expiresAt` (`expiresAt < now`): then
the join path fails with the distinct expired message without joining, and
the joined-state poll force-leaves — even though the row still exists. -/
theorem session_expiry_strict (env : JoinEnv) (sess : SessionRow) (t : Int)
    (code al : String) (s : CState) (now : Int)
    (hcode : jsToUpper (jsTrim code) ≠ "") (hal : stripColons (jsTrim al) ≠ "")
    (hlook : env.lookup = some sess) (hfin : sess.expiresMs = some t) :
    ((joinSessionCore env code al).result = .expired ↔ t < env.now)
    ∧ (t < env.now →
        (joinSessionStep env code al s).joinError = "Sessionen er udløbet."
        ∧ (joinSessionStep env code al s).isJoined = s.isJoined)
    ∧ ((loadSessionTick (some sess) now s).isJoined = false ↔
        (t < now ∨ s.isJoined = false)) := by
  have hexp : sessionExpiredCheck sess.expiresMs env.now = decide (t < env.now) := by
    simp [sessionExpiredCheck, hfin]
  have hexpn : sessionExpiredCheck sess.expiresMs now = decide (t < now) := by
    simp [sessionExpiredCheck, hfin]
  refine ⟨?_, ?_, ?_⟩
  · by_cases ht : t < env.now
    · simp [joinSessionCore, hcode, hal, hlook, hexp, ht]
    · cases hb : aliasBlocked env <;> cases hu : env.upsertError <;>
        simp [joinSessionCore, hcode, hal, hlook, hexp, ht, hb, hu]
  · intro ht
    constructor <;> simp [joinSessionStep, hcode, hal, hlook, hexp, ht]
  · by_cases ht : t < now
    · simp [loadSessionTick, hexpn, ht, leaveSession]
    · simp [loadSessionTick, hexpn, ht]

theorem session_expiry_strict_witness :
    ((joinSessionCore envC1 "ab" "Kid").result = .expired ↔
      (2000000 : Int) < 1000000) := by
  exact (session_expiry_strict envC1 ⟨"sid1", some 2000000⟩ 2000000 "ab" "Kid"
    initState 0 (by decide) (by decide) rfl rfl).1

/-! ### Same-device rejoin (C3) -/

/-- The participant row produced by applying an upsert. -/
def rowToPartRow (r : UpsertRow) : PartRow :=
  { lastSeen := some (some r.last_seen), clientToken := some r.client_token }

/-- C3: a first join with no stored token succeeds and persists a fresh
token; a second join with the same pair that presents that token against
the row the first join wrote succeeds as well — never `AliasTaken` — even
though the first `last_seen` is still within the freshness window. -/
theorem joinSession_idempotent_rejoin
    (code al : String) (sess : SessionRow) (now1 now2 : Int) (fresh1 fresh2 : String)
    (hcode : jsToUpper (jsTrim code) ≠ "") (hal : stripColons (jsTrim al) ≠ "")
    (hfresh : fresh1 ≠ "")
    (hexp1 : sessionExpiredCheck sess.expiresMs now1 = false)
    (hexp2 : sessionExpiredCheck sess.expiresMs now2 = false)
    (hwin : now2 - now1 < freshnessWindowMs) :
    ∃ row : UpsertRow,
      joinSessionCore ⟨now1, some sess, none, none, fresh1, false⟩ code al
        = ⟨.ok fresh1, some row⟩
      ∧ row.client_token = fresh1
      ∧ isRecentLastSeen now2 (some row.last_seen) = true
      ∧ (joinSessionCore ⟨now2, some sess, some (rowToPartRow row), some fresh1,
          fresh2, false⟩ code al).result = .ok fresh1
      ∧ (joinSessionCore ⟨now2, some sess, some (rowToPartRow row), some fresh1,
          fresh2, false⟩ code al).result ≠ .aliasTaken := by
  refine ⟨⟨sess.id, stripColons (jsTrim al), now1, fresh1⟩, ?_, rfl, ?_, ?_, ?_⟩
  · have hb : aliasBlocked ⟨now1, some sess, none, none, fresh1, false⟩ = false := rfl
    simp [joinSessionCore, hcode, hal, hexp1, hb]
  · simp [isRecentLastSeen, hwin]
  · have hb : aliasBlocked ⟨now2, some sess,
        some (rowToPartRow ⟨sess.id, stripColons (jsTrim al), now1, fresh1⟩),
        some fresh1, fresh2, false⟩ = false := by
      simp [aliasBlocked, rowToPartRow, tokenMatches, hfresh]
    simp [joinSessionCore, hcode, hal, hexp2, hb]
  · have hb : aliasBlocked ⟨now2, some sess,
        some (rowToPartRow ⟨sess.id, stripColons (jsTrim al), now1, fresh1⟩),
        some fresh1, fresh2, false⟩ = false := by
      simp [aliasBlocked, rowToPartRow, tokenMatches, hfresh]
    simp [joinSessionCore, hcode, hal, hexp2, hb]

theorem joinSession_idempotent_rejoin_witness :
    (joinSessionCore ⟨2000, some ⟨"sid3", some 900000⟩,
        some (rowToPartRow ⟨"sid3", "Kid", 1000, "tok3"⟩), some "tok3", "tok4",
        false⟩ "ab" "Kid").result = .ok "tok3" := by
  obtain ⟨row, h1, -, -, h4, -⟩ := joinSession_idempotent_rejoin "ab" "Kid"
    ⟨"sid3", some 900000⟩ 1000 2000 "tok3" "tok4" (by decide) (by decide)
    (by decide) (by decide) (by decide) (by decide)
  have heval : joinSessionCore ⟨1000, some ⟨"sid3", some 900000⟩, none, none,
      "tok3", false⟩ "ab" "Kid"
      = ⟨.ok "tok3", some ⟨"sid3", "Kid", 1000, "tok3"⟩⟩ := by decide
  have hrow : some row = some (⟨"sid3", "Kid", 1000, "tok3"⟩ : UpsertRow) :=
    congrArg JoinOutcome.upsertAttempt (h1.symm.trans heval)
  obtain rfl : row = ⟨"sid3", "Kid", 1000, "tok3"⟩ := Option.some.inj hrow
  exact h4

/-! ### Heartbeat eviction (C6) -/

/-- C6: the heartbeat runs on a fixed 30-second interval; a tick whose touch
errors is a no-op, a tick whose touch returns rows is a no-op, and a tick
whose touch succeeds with zero rows force-leaves with the eviction
message. -/
theorem heartbeat_eviction (r : TouchResp) (s : CState) :
    heartbeatIntervalMs = 30000
    ∧ (r.error = true → heartbeatTick r s = s)
    ∧ (r.error = false → touchDataEmpty r = false → heartbeatTick r s = s)
    ∧ (r.error = false → touchDataEmpty r = true →
        (heartbeatTick r s).isJoined = false
        ∧ (heartbeatTick r s).joinError = evictionMessage
        ∧ heartbeatTick r s = leaveSession (some evictionMessage) s) := by
  refine ⟨rfl, ?_, ?_, ?_⟩
  · intro herr
    simp [heartbeatTick, herr]
  · intro herr hne
    simp [heartbeatTick, herr, hne]
  · intro herr he
    have heq : heartbeatTick r s = leaveSession (some evictionMessage) s := by
      simp [heartbeatTick, herr, he]
    rw [heq]
    refine ⟨rfl, ?_, rfl⟩
    simp [leaveSession, evictionMessage]

theorem heartbeat_eviction_witness :
    (heartbeatTick ⟨false, some []⟩ joinedStateW).isJoined = false
    ∧ (heartbeatTick ⟨false, some []⟩ joinedStateW).joinError = evictionMessage := by
  have h := (heartbeat_eviction ⟨false, some []⟩ joinedStateW).2.2.2 rfl rfl
  exact ⟨h.1, h.2.1⟩

/-! ### Non-finite expiry (C9) -/

/-- C9: a session whose stored expiry does not parse to a finite timestamp
is treated as never expiring: the join accepts it, the joined-state poll
stores the id without force-leaving, the expiry-timer effect arms nothing,
and only a deleted row (poll returning nothing) ends the session. -/
theorem nonfinite_expiry_never_expires (env : JoinEnv) (sess : SessionRow)
    (code al : String) (s : CState) (now later : Int)
    (hcode : jsToUpper (jsTrim code) ≠ "") (hal : stripColons (jsTrim al) ≠ "")
    (hlook : env.lookup = some sess) (hnf : sess.expiresMs = none)
    (hblock : aliasBlocked env = false) (hup : env.upsertError = false) :
    (joinSessionCore env code al).result = .ok (env.existingToken.getD env.freshToken)
    ∧ loadSessionTick (some sess) now s
        = { s with sessionId := sess.id, sessionExpiresAt := none }
    ∧ (loadSessionTick (some sess) now s).isJoined = s.isJoined
    ∧ expiryTimerEffect (loadSessionTick (some sess) now s).sessionExpiresAt later
        = .noTimer
    ∧ (loadSessionTick none now s).isJoined = false := by
  have hexp : sessionExpiredCheck sess.expiresMs now = false := by
    simp [sessionExpiredCheck, hnf]
  have hexp' : sessionExpiredCheck sess.expiresMs env.now = false := by
    simp [sessionExpiredCheck, hnf]
  refine ⟨?_, ?_, ?_, ?_, rfl⟩
  · simp [joinSessionCore, hcode, hal, hlook, hexp', hblock, hup]
  · simp [loadSessionTick, hnf, sessionExpiredCheck]
  · simp [loadSessionTick, hexp]
  · simp [loadSessionTick, hnf, sessionExpiredCheck, expiryTimerEffect]

theorem nonfinite_expiry_never_expires_witness :
    (joinSessionCore ⟨1000, some ⟨"sid4", none⟩, none, none, "tok9", false⟩
      "ab" "Kid").result = .ok "tok9"
    ∧ expiryTimerEffect
        (loadSessionTick (some ⟨"sid4", none⟩) 5000 joinedStateW).sessionExpiresAt
        999999 = .noTimer := by
  have h := nonfinite_expiry_never_expires
    ⟨1000, some ⟨"sid4", none⟩, none, none, "tok9", false⟩ ⟨"sid4", none⟩
    "ab" "Kid" joinedStateW 5000 999999 (by decide) (by decide) rfl rfl rfl rfl
  exact ⟨h.1, h.2.2.2.1⟩

/-! ### Teacher-side canvas event ordering (broeker page, C4) -/

/-- A canvas event (`canvas-stroke`, `canvas-clear` or `canvas-snapshot`)
as the consumer sees it: the room it belongs to and its timestamp. -/
structure CanvasMsg where
  room : String
  ts : Int
deriving Repr, DecidableEq

/-- `lastCanvasTsRef.current.get(roomId) ?? 0`. -/
def lastCanvasTs (m : List (String × Int)) (roomId : String) : Int :=
  (lookupA m roomId).getD 0

/-- `shouldApplyCanvasEvent`: apply iff `ts >= last`. -/
def shouldApplyCanvasEvent (m : List (String × Int)) (roomId : String) (ts : Int) : Bool :=
  lastCanvasTs m roomId ≤ ts

/-- `setLastCanvasTs`. -/
def setLastCanvasTs (m : List (String × Int)) (roomId : String) (ts : Int) :
    List (String × Int) :=
  setA m roomId ts

/-- The `source.onmessage` handler restricted to canvas events: an arriving
event is applied (and its timestamp recorded) iff `shouldApplyCanvasEvent`
accepts it, otherwise it is dropped.  Returns the applied events in arrival
order. -/
def consumeCanvas (m : List (String × Int)) : List CanvasMsg → List CanvasMsg
  | [] => []
  | e :: rest =>
    if shouldApplyCanvasEvent m e.room e.ts then
      e :: consumeCanvas (setLastCanvasTs m e.room e.ts) rest
    else consumeCanvas m rest

theorem lastCanvasTs_set_self (m : List (String × Int)) (r : String) (t : Int) :
    lastCanvasTs (setLastCanvasTs m r t) r = t := by
  simp [lastCanvasTs, setLastCanvasTs, lookupA_setA_self]

theorem lastCanvasTs_set_other (m : List (String × Int)) (r r' : String) (t : Int)
    (h : r' ≠ r) : lastCanvasTs (setLastCanvasTs m r t) r' = lastCanvasTs m r' := by
  simp [lastCanvasTs, setLastCanvasTs, lookupA_setA_other _ _ _ _ h]

theorem consumeCanvas_ts_ge (es : List CanvasMsg) (m : List (String × Int))
    (r : String) (x : CanvasMsg) (hx : x ∈ consumeCanvas m es) (hr : x.room = r) :
    lastCanvasTs m r ≤ x.ts := by
  induction es generalizing m with
  | nil => cases hx
  | cons e rest ih =>
    by_cases happ : shouldApplyCanvasEvent m e.room e.ts = true
    · rw [consumeCanvas, if_pos happ] at hx
      have happle : lastCanvasTs m e.room ≤ e.ts := by
        simpa [shouldApplyCanvasEvent] using happ
      cases hx with
      | head => rw [← hr]; exact happle
      | tail _ hx' =>
        have hrec := ih (setLastCanvasTs m e.room e.ts) hx'
        by_cases hroom : e.room = r
        · rw [hroom] at happle hrec
          rw [lastCanvasTs_set_self] at hrec
          exact le_trans happle hrec
        · rwa [lastCanvasTs_set_other m e.room r e.ts
            (fun hh => hroom hh.symm)] at hrec
    · rw [consumeCanvas, if_neg happ] at hx
      exact ih m hx

theorem consumeCanvas_chain (es : List CanvasMsg) (m : List (String × Int))
    (r : String) :
    List.Chain' (· ≤ ·)
      (((consumeCanvas m es).filter (fun e => e.room == r)).map CanvasMsg.ts) := by
  induction es generalizing m with
  | nil => simp [consumeCanvas]
  | cons e rest ih =>
    by_cases happ : shouldApplyCanvasEvent m e.room e.ts = true
    · rw [consumeCanvas, if_pos happ]
      by_cases hroom : e.room = r
      · rw [List.filter_cons_of_pos (by simpa using hroom), List.map_cons,
          List.chain'_cons']
        refine ⟨?_, ih _⟩
        intro b hb
        have hbmem := List.mem_of_mem_head? hb
        obtain ⟨x, hx, rfl⟩ := List.mem_map.mp hbmem
        have hxmem := (List.mem_filter.mp hx).1
        have hxroom : x.room = r := by simpa using (List.mem_filter.mp hx).2
        have hge := consumeCanvas_ts_ge rest (setLastCanvasTs m e.room e.ts)
          r x hxmem hxroom
        rw [hroom, lastCanvasTs_set_self] at hge
        exact hge
      · rw [List.filter_cons_of_neg (by simpa using hroom)]
        exact ih _
    · rw [consumeCanvas, if_neg happ]
      exact ih m

/-- C4: canvas events are applied in timestamp order per room.  An event
rejected by the timestamp test is dropped without touching the recorded
state; an accepted event is applied exactly when its `ts` is at least the
recorded last applied canvas timestamp of its room; consequently the
applied canvas timestamps of each room form a monotonically non-decreasing
sequence, and in the t=5-then-t=3 reordering scenario the stale t=3 event
is dropped. -/
theorem canvas_timestamp_order :
    (∀ (m : List (String × Int)) (rId : String) (t : Int),
        shouldApplyCanvasEvent m rId t = true ↔ lastCanvasTs m rId ≤ t)
    ∧ (∀ (m : List (String × Int)) (e : CanvasMsg) (rest : List CanvasMsg),
        shouldApplyCanvasEvent m e.room e.ts = false →
        consumeCanvas m (e :: rest) = consumeCanvas m rest)
    ∧ (∀ (m : List (String × Int)) (es : List CanvasMsg) (r : String),
        List.Chain' (· ≤ ·)
          (((consumeCanvas m es).filter (fun e => e.room == r)).map CanvasMsg.ts))
    ∧ consumeCanvas [] [⟨"AB3F9Q:Kid", 5⟩, ⟨"AB3F9Q:Kid", 3⟩]
        = [⟨"AB3F9Q:Kid", 5⟩] := by
  refine ⟨?_, ?_, ?_, ?_⟩
  · intro m rId t
    simp [shouldApplyCanvasEvent]
  · intro m e rest hdrop
    rw [consumeCanvas, if_neg (by simp [hdrop])]
  · intro m es r
    exact consumeCanvas_chain es m r
  · decide

theorem canvas_timestamp_order_witness :
    consumeCanvas [] [(⟨"AB3F9Q:Kid", 3⟩ : CanvasMsg), ⟨"AB3F9Q:Kid", 5⟩,
        ⟨"AB3F9Q:Kid", 4⟩]
      = [⟨"AB3F9Q:Kid", 3⟩, ⟨"AB3F9Q:Kid", 5⟩] := by
  have h := canvas_timestamp_order.2.1
    (setLastCanvasTs (setLastCanvasTs [] "AB3F9Q:Kid" 3) "AB3F9Q:Kid" 5)
    ⟨"AB3F9Q:Kid", 4⟩ [] (by decide)
  rw [consumeCanvas, if_pos (by decide), consumeCanvas, if_pos (by decide)]
  rw [show setLastCanvasTs (setLastCanvasTs [] "AB3F9Q:Kid" 3) "AB3F9Q:Kid" 5
      = [("AB3F9Q:Kid", 5)] from by decide] at h ⊢
  rw [h]
  rfl

/-! ### Server-push event bus (utils/liveRooms, C5)

A stream controller is modelled by an id, the queue of payloads enqueued so
far, and whether its `enqueue` throws (a closed stream).  The process-wide
`rooms` registry is an association list from room id to the subscriber
list. -/

structure StreamSub where
  id : Nat
  queue : List String
  fails : Bool
deriving Repr, DecidableEq

abbrev RoomsStore := List (String × List StreamSub)

/-- `addSubscriber`: get-or-create the room's set and add the controller. -/
def addSubscriber (rooms : RoomsStore) (room : String) (c : StreamSub) : RoomsStore :=
  let subs := (lookupA rooms room).getD []
  setA rooms room (if c ∈ subs then subs else subs ++ [c])

/-- `removeSubscriber`: delete the controller; drop the room when empty. -/
def removeSubscriber (rooms : RoomsStore) (room : String) (c : StreamSub) : RoomsStore :=
  match lookupA rooms room with
  | none => rooms
  | some subs =>
    let subs' := subs.filter (fun s => s != c)
    if subs' = [] then delA rooms room else setA rooms room subs'

/-- `controller.enqueue(payload)` on a live stream. -/
def enqueuePayload (payload : String) (c : StreamSub) : StreamSub :=
  { c with queue := c.queue ++ [payload] }

/-- The publish loop over `Array.from(subscribers)` (a snapshot): a throwing
enqueue removes the subscriber from the live set, every other subscriber
receives the payload once. -/
def publishLoop (payload : String) : List StreamSub → List StreamSub
  | [] => []
  | c :: rest =>
    if c.fails then publishLoop payload rest
    else enqueuePayload payload c :: publishLoop payload rest

/-- `publishEvent(room, event)`: a no-op without subscribers; otherwise run
the loop and delete the room if its subscriber set ended up empty. -/
def publishEvent (rooms : RoomsStore) (room : String) (payload : String) : RoomsStore :=
  match lookupA rooms room with
  | none => rooms
  | some subs =>
    let subs' := publishLoop payload subs
    if subs' = [] then delA rooms room else setA rooms room subs'

theorem publishLoop_eq_filter_map (payload : String) (subs : List StreamSub) :
    publishLoop payload subs
      = (subs.filter (fun c => !c.fails)).map (enqueuePayload payload) := by
  induction subs with
  | nil => rfl
  | cons c rest ih =>
    by_cases hc : c.fails = true
    · simp [publishLoop, hc, List.filter_cons, ih]
    · rw [Bool.not_eq_true] at hc
      simp [publishLoop, hc, List.filter_cons, ih]

/-- C5: publishing to a room without subscribers is a no-op; otherwise,
iterating over a snapshot of the subscriber set, every non-throwing
subscriber gets the payload enqueued exactly once (its queue grows by one
occurrence), throwing subscribers are removed, the room entry is deleted
exactly when the surviving set is empty, and no other room is touched. -/
theorem publishEvent_delivery (rooms : RoomsStore) (room : String) (payload : String) :
    (lookupA rooms room = none → publishEvent rooms room payload = rooms)
    ∧ (∀ subs, lookupA rooms room = some subs →
        publishLoop payload subs
          = (subs.filter (fun c => !c.fails)).map (enqueuePayload payload)
        ∧ (∀ c ∈ subs, c.fails = false →
            (enqueuePayload payload c).queue.count payload
              = c.queue.count payload + 1)
        ∧ lookupA (publishEvent rooms room payload) room
            = (if subs.filter (fun c => !c.fails) = [] then none
               else some ((subs.filter (fun c => !c.fails)).map
                 (enqueuePayload payload))))
    ∧ (∀ r', r' ≠ room →
        lookupA (publishEvent rooms room payload) r' = lookupA rooms r') := by
  refine ⟨?_, ?_, ?_⟩
  · intro hnone
    simp [publishEvent, hnone]
  · intro subs hsubs
    refine ⟨publishLoop_eq_filter_map payload subs, ?_, ?_⟩
    · intro c _ _
      simp [enqueuePayload, List.count_append]
    · by_cases hempty : subs.filter (fun c => !c.fails) = []
      · have hloop : publishLoop payload subs = [] := by
          rw [publishLoop_eq_filter_map, hempty]
          rfl
        simp [publishEvent, hsubs, hloop, hempty, lookupA_delA_self]
      · have hloop : publishLoop payload subs ≠ [] := by
          rw [publishLoop_eq_filter_map]
          simpa using hempty
        simp [publishEvent, hsubs, hloop, hempty, lookupA_setA_self,
          publishLoop_eq_filter_map]
  · intro r' hr'
    cases hsubs : lookupA rooms room with
    | none => simp [publishEvent, hsubs]
    | some subs =>
      by_cases hempty : publishLoop payload subs = []
      · simp [publishEvent, hsubs, hempty, lookupA_delA_other _ _ _ hr']
      · simp [publishEvent, hsubs, hempty, lookupA_setA_other _ _ _ _ hr']

/-- Registry used by the C5 witness: one live and one closed stream in one
room, a second untouched room. -/
def roomsW : RoomsStore :=
  [("AB:Kid", [⟨1, [], false⟩, ⟨2, [], true⟩]), ("AB:Mia", [⟨3, [], false⟩])]

theorem publishEvent_delivery_witness :
    lookupA (publishEvent roomsW "AB:Kid" "ev") "AB:Kid"
      = some [⟨1, ["ev"], false⟩]
    ∧ lookupA (publishEvent roomsW "AB:Kid" "ev") "AB:Mia"
      = some [⟨3, [], false⟩]
    ∧ publishEvent roomsW "nobody" "ev" = roomsW := by
  refine ⟨?_, ?_, ?_⟩
  · have h := ((publishEvent_delivery roomsW "AB:Kid" "ev").2.1
      [⟨1, [], false⟩, ⟨2, [], true⟩] rfl).2.2
    rw [h]
    rfl
  · exact (publishEvent_delivery roomsW "AB:Kid" "ev").2.2 "AB:Mia" (by decide)
  · exact (publishEvent_delivery roomsW "nobody" "ev").1 rfl

/-! ### Managed channel transport (utils/liveRealtime, C8)

The module-level `channels` and `handlers` maps become one state record.
Channels are identified by the order of their creation (`nextChannelId`);
`closedChannels` records every channel on which `unsubscribe()` was
called.  Handlers are opaque ids in a set-like list. -/

structure RTState where
  channels : List (String × Nat)
  handlers : List (String × List Nat)
  nextChannelId : Nat
  closedChannels : List Nat
deriving Repr, DecidableEq

def rtInit : RTState := ⟨[], [], 0, []⟩

/-- `ensureChannel(roomId)`: return the cached channel or create, subscribe
and cache a fresh one. -/
def ensureChannel (roomId : String) (s : RTState) : Nat × RTState :=
  match lookupA s.channels roomId with
  | some c => (c, s)
  | none =>
    (s.nextChannelId,
      { s with channels := setA s.channels roomId s.nextChannelId,
               nextChannelId := s.nextChannelId + 1 })

/-- `sendLiveEvent(roomId, event)`: guard on a falsy room id, then ensure a
channel exists (the broadcast itself does not change the registry). -/
def sendLiveEvent (roomId : String) (s : RTState) : RTState :=
  if roomId = "" then s else (ensureChannel roomId s).2

/-- `subscribeLiveEvents(roomId, handler)`: guard on a falsy room id, add
the handler to the room's set, ensure the channel. -/
def subscribeLiveEvents (roomId : String) (h : Nat) (s : RTState) : RTState :=
  if roomId = "" then s
  else
    let hs := (lookupA s.handlers roomId).getD []
    let hs' := if h ∈ hs then hs else hs ++ [h]
    (ensureChannel roomId { s with handlers := setA s.handlers roomId hs' }).2

/-- The unsubscribe closure returned by `subscribeLiveEvents`: delete the
handler; when the set becomes empty, drop the handler entry, call
`channel.unsubscribe()` and evict the cached channel. -/
def unsubscribeLiveEvents (roomId : String) (h : Nat) (s : RTState) : RTState :=
  match lookupA s.handlers roomId with
  | none => s
  | some hs =>
    let hs' := hs.filter (fun x => x != h)
    if hs' = [] then
      let s1 : RTState := { s with handlers := delA s.handlers roomId }
      match lookupA s1.channels roomId with
      | some c => { s1 with channels := delA s1.channels roomId,
                            closedChannels := c :: s1.closedChannels }
      | none => s1
    else { s with handlers := setA s.handlers roomId hs' }

theorem ensureChannel_cached (roomId : String) (s : RTState) :
    (lookupA (ensureChannel roomId s).2.channels roomId).isSome = true := by
  cases hc : lookupA s.channels roomId with
  | some c => simp [ensureChannel, hc]
  | none => simp [ensureChannel, hc, lookupA_setA_self]

/-- C8 counterexample: after a single `sendLiveEvent` from the initial
state, a channel is cached for the room while no handler at all is
subscribed to it, so a cached channel does not imply a subscribed
handler. -/
theorem channel_without_handler_counterexample :
    lookupA (sendLiveEvent "AB:Kid" rtInit).channels "AB:Kid" = some 0
    ∧ lookupA (sendLiveEvent "AB:Kid" rtInit).handlers "AB:Kid" = none := by
  constructor <;> rfl

/-- C8 amended: unsubscribing the last handler of a room through the
closure returned by `subscribeLiveEvents` removes the handler entry,
evicts the cached channel and calls `unsubscribe()` on it (and
`subscribeLiveEvents` always leaves a cached channel behind); however the
cache is not reference-counted purely by handler count, since
`sendLiveEvent` also creates and caches a channel for a room with no
handlers. -/
theorem unsubscribe_last_handler_evicts (s : RTState) (roomId : String) (h : Nat)
    (hh : lookupA s.handlers roomId = some [h]) :
    lookupA (unsubscribeLiveEvents roomId h s).handlers roomId = none
    ∧ lookupA (unsubscribeLiveEvents roomId h s).channels roomId = none
    ∧ (∀ c, lookupA s.channels roomId = some c →
        c ∈ (unsubscribeLiveEvents roomId h s).closedChannels)
    ∧ (roomId ≠ "" →
        (lookupA (subscribeLiveEvents roomId h s).channels roomId).isSome = true) := by
  have hfilter : ([h].filter (fun x => x != h)) = ([] : List Nat) := by
    simp
  refine ⟨?_, ?_, ?_, ?_⟩
  · cases hc : lookupA s.channels roomId with
    | none =>
      simp [unsubscribeLiveEvents, hh, hfilter, hc, lookupA_delA_self]
    | some c =>
      simp [unsubscribeLiveEvents, hh, hfilter, hc, lookupA_delA_self]
  · cases hc : lookupA s.channels roomId with
    | none => simp [unsubscribeLiveEvents, hh, hfilter, hc]
    | some c => simp [unsubscribeLiveEvents, hh, hfilter, hc, lookupA_delA_self]
  · intro c hc
    simp [unsubscribeLiveEvents, hh, hfilter, hc]
  · intro hr
    simp only [subscribeLiveEvents, if_neg hr]
    exact ensureChannel_cached roomId _

theorem unsubscribe_last_handler_evicts_witness :
    lookupA (unsubscribeLiveEvents "AB:Kid" 7
      (subscribeLiveEvents "AB:Kid" 7 rtInit)).channels "AB:Kid" = none := by
  exact (unsubscribe_last_handler_evicts (subscribeLiveEvents "AB:Kid" 7 rtInit)
    "AB:Kid" 7 rfl).2.1

/-! ### Event publish endpoint POST /api/live (C10)

Request bodies are arbitrary JSON values.  `req.json().catch(() => null)`
is an `Option JValue` (`none` for unparseable bodies); the endpoint checks
`!body || typeof body.room !== "string" || !body.event` and otherwise
publishes the untouched event value. -/

inductive JValue where
  | jnull
  | jbool (b : Bool)
  | jnum (n : Int)
  | jstr (s : String)
  | jarr (xs : List JValue)
  | jobj (fields : List (String × JValue))

/-- JS truthiness of a JSON value (`undefined` cannot come from JSON.parse;
arrays and objects are always truthy). -/
def jfalsy : JValue → Bool
  | .jnull => true
  | .jbool b => !b
  | .jnum n => n == 0
  | .jstr s => s == ""
  | .jarr _ => false
  | .jobj _ => false

/-- Property access `body.k`: a field of an object, `undefined` (`none`)
otherwise. -/
def getField : JValue → String → Option JValue
  | .jobj fields, k => lookupA fields k
  | _, _ => none

/-- `typeof body.room === "string"`. -/
def isStringField : Option JValue → Bool
  | some (.jstr _) => true
  | _ => false

/-- `!body.event`: an absent field is `undefined`, hence falsy. -/
def fieldFalsy : Option JValue → Bool
  | none => true
  | some v => jfalsy v

/-- The room string of a body whose `room` field is a string. -/
def roomString : JValue → Option String
  | .jobj fields =>
    match lookupA fields "room" with
    | some (.jstr s) => some s
    | _ => none
  | _ => none

structure PostResult where
  status : Nat
  ok : Bool
  published : Option (String × JValue)

/-- `POST /api/live`: 400 `{ok:false}` when the guard fires, otherwise
publish `(body.room, body.event)` unvalidated and answer 200 `{ok:true}`. -/
def postLive (reqBody : Option JValue) : PostResult :=
  let body := reqBody.getD .jnull
  if jfalsy body || !isStringField (getField body "room")
      || fieldFalsy (getField body "event") then
    ⟨400, false, none⟩
  else
    ⟨200, true, some ((roomString body).getD "", (getField body "event").getD .jnull)⟩

theorem jfalsy_no_fields {b : JValue} (h : jfalsy b = true) (k : String) :
    getField b k = none := by
  cases b <;> simp_all [getField, jfalsy]

/-- C10: the endpoint answers 400 `{ok:false}` with nothing published
exactly when the body is unparseable, its `room` field is not a string, or
its `event` field is falsy/absent; for every parsed body with a string
`room` and a truthy `event` of any shape it publishes exactly that pair —
unvalidated against the LiveEvent union — and answers 200 `{ok:true}`,
and the publish to a room without subscribers is still a no-op success. -/
theorem postLive_classification (reqBody : Option JValue) :
    (((postLive reqBody).status = 400 ∧ (postLive reqBody).ok = false
        ∧ (postLive reqBody).published = none)
      ↔ (reqBody = none
          ∨ (∀ s, getField (reqBody.getD .jnull) "room" ≠ some (.jstr s))
          ∨ fieldFalsy (getField (reqBody.getD .jnull) "event") = true))
    ∧ (∀ body room ev, reqBody = some body →
        getField body "room" = some (.jstr room) →
        getField body "event" = some ev → jfalsy ev = false →
        (postLive reqBody).status = 200 ∧ (postLive reqBody).ok = true
        ∧ (postLive reqBody).published = some (room, ev))
    ∧ (∀ (rooms : RoomsStore) (room payload : String),
        lookupA rooms room = none → publishEvent rooms room payload = rooms) := by
  refine ⟨?_, ?_, ?_⟩
  · constructor
    · intro hres
      by_cases hguard : (jfalsy (reqBody.getD .jnull)
          || !isStringField (getField (reqBody.getD .jnull) "room")
          || fieldFalsy (getField (reqBody.getD .jnull) "event")) = true
      · rcases Bool.or_eq_true_iff.mp hguard with hfe | hev
        · rcases Bool.or_eq_true_iff.mp hfe with hf | hroom
          · refine Or.inr (Or.inl ?_)
            intro s
            rw [jfalsy_no_fields hf "room"]
            simp
          · refine Or.inr (Or.inl ?_)
            intro s hs
            rw [hs] at hroom
            simp [isStringField] at hroom
        · exact Or.inr (Or.inr hev)
      · exfalso
        have : postLive reqBody
            = ⟨200, true, some ((roomString (reqBody.getD .jnull)).getD "",
                (getField (reqBody.getD .jnull) "event").getD .jnull)⟩ := by
          simp only [postLive]
          rw [if_neg (by simpa using hguard)]
        rw [this] at hres
        exact absurd hres.1 (by simp)
    · intro hcases
      have hguard : (jfalsy (reqBody.getD .jnull)
          || !isStringField (getField (reqBody.getD .jnull) "room")
          || fieldFalsy (getField (reqBody.getD .jnull) "event")) = true := by
        rcases hcases with hnone | hroom | hev
        · subst hnone
          rfl
        · refine Bool.or_eq_true_iff.mpr (Or.inl (Bool.or_eq_true_iff.mpr (Or.inr ?_)))
          cases hf : getField (reqBody.getD .jnull) "room" with
          | none => rfl
          | some v =>
            cases v <;> first
              | rfl
              | exact absurd hf (by intro hh; exact hroom _ hh)
        · exact Bool.or_eq_true_iff.mpr (Or.inr hev)
      have : postLive reqBody = ⟨400, false, none⟩ := by
        simp only [postLive]
        rw [if_pos hguard]
      rw [this]
      exact ⟨rfl, rfl, rfl⟩
  · intro body room ev hbody hroom hev hfev
    subst hbody
    have hobj : ∃ fields, body = .jobj fields := by
      cases body <;> simp [getField] at hroom
      exact ⟨_, rfl⟩
    obtain ⟨fields, rfl⟩ := hobj
    have hguard : (jfalsy (JValue.jobj fields)
        || !isStringField (getField (.jobj fields) "room")
        || fieldFalsy (getField (.jobj fields) "event")) = false := by
      simp only [getField] at hroom hev
      have h1 : jfalsy (JValue.jobj fields) = false := rfl
      have h2 : isStringField (getField (.jobj fields) "room") = true := by
        simp [getField, hroom, isStringField]
      have h3 : fieldFalsy (getField (.jobj fields) "event") = false := by
        simp [getField, hev, fieldFalsy, hfev]
      simp [h1, h2, h3]
    have hpost : postLive (some (.jobj fields))
        = ⟨200, true, some ((roomString (.jobj fields)).getD "",
            (getField (.jobj fields) "event").getD .jnull)⟩ := by
      simp only [postLive, Option.getD]
      rw [if_neg (by simpa using hguard)]
    rw [hpost]
    simp only [getField] at hroom hev
    refine ⟨rfl, rfl, ?_⟩
    simp [roomString, hroom, getField, hev]
  · intro rooms room payload hnone
    simp [publishEvent, hnone]

theorem postLive_classification_witness :
    (postLive (some (.jobj [("room", .jstr "AB:Kid"),
        ("event", .jobj [("type", .jstr "weird")])]))).ok = true
    ∧ (postLive none).status = 400 := by
  constructor
  · exact ((postLive_classification (some (.jobj [("room", .jstr "AB:Kid"),
      ("event", .jobj [("type", .jstr "weird")])]))).2.1
      (.jobj [("room", .jstr "AB:Kid"), ("event", .jobj [("type", .jstr "weird")])])
      "AB:Kid" (.jobj [("type", .jstr "weird")]) rfl rfl rfl rfl).2.1.symm ▸ rfl
  · exact (((postLive_classification none).1.mpr (Or.inl rfl)).1)

end MatLive
